import Mathlib

/-!
Shallow embedding of the PIN-entry keypad widget from
`core/embed/rust/src/ui/model_mercury/component/keyboard/pin.rs`.

The buffer of entered digits (`PinDots.digits`, a `ShortString` in the
source, i.e. a fixed-capacity `heapless::String<50>`) is modelled as a
`List Char`.  Effects on the rendering context (`ctx.request_paint()`,
`ctx.request_timer(..)`) are modelled by explicit return values and an
explicit `EventCtx` record.  Child button widgets are external
collaborators; their reaction to an incoming event enters the embedding
as an explicit record of per-button responses, mirroring the values the
`Button::event` calls return in the source.
-/

namespace Pin

/-- `const MAX_LENGTH: usize = 50;` -/
def MAX_LENGTH : Nat := 50

/-- `const MAX_VISIBLE_DOTS: usize = 18;` -/
def MAX_VISIBLE_DOTS : Nat := 18

/-- `const MAX_VISIBLE_DIGITS: usize = 18;` -/
def MAX_VISIBLE_DIGITS : Nat := 18

/-- `const DIGIT_COUNT: usize = 10;` -/
def DIGIT_COUNT : Nat := 10

/-- `heapless::String<N>::push_str` (the `ShortString` of `strutil` is
`heapless::String<50>`): `push_str` forwards to
`Vec::extend_from_slice`, which first checks
`self.len + other.len() > self.capacity()` and in that case returns
`Err(())` WITHOUT modifying anything; otherwise it appends all bytes
and returns `Ok(())`.  The capacity of `ShortString` equals
`MAX_LENGTH = 50`.  Returns the new contents and whether the append
succeeded. -/
def shortStringPushStr (digits : List Char) (text : List Char) :
    List Char × Bool :=
  if digits.length + text.length > MAX_LENGTH then (digits, false)
  else (digits ++ text, true)

/-- State of the `PinDots` component (`struct PinDots`): the entered
digits and the reveal flag `display_digits`.  The geometric fields
(`area`, `pad`, `style`) carry no digit state and are omitted. -/
structure PinDots where
  digits : List Char
  display_digits : Bool
  deriving Repr, DecidableEq

/-- `PinDots::new`: empty digit string, reveal flag off. -/
def PinDots.new : PinDots :=
  { digits := [], display_digits := false }

/-- `fn is_empty(&self) -> bool { self.digits.is_empty() }` -/
def PinDots.is_empty (d : PinDots) : Bool :=
  d.digits.isEmpty

/-- `fn is_full(&self) -> bool { self.digits.len() >= MAX_LENGTH }` -/
def PinDots.is_full (d : PinDots) : Bool :=
  decide (d.digits.length ≥ MAX_LENGTH)

/-- `fn clear(&mut self, ctx)`: `self.digits.clear()` then a repaint
request (always). -/
def PinDots.clear (d : PinDots) : PinDots :=
  { d with digits := [] }

/-- `fn push(&mut self, ctx, text: &str)`: `self.digits.push_str(text)`,
ignoring the error result (the `is_err` branch is an empty comment
block), then a repaint request (always). -/
def PinDots.push (d : PinDots) (text : List Char) : PinDots :=
  { d with digits := (shortStringPushStr d.digits text).1 }

/-- `fn pop(&mut self, ctx)`: `self.digits.pop()` removes the last
character if any; a repaint is requested exactly when a character was
removed.  The returned `Bool` is that repaint request, i.e. whether a
removal happened. -/
def PinDots.pop (d : PinDots) : PinDots × Bool :=
  match d.digits with
  | [] => (d, false)
  | _ :: _ => ({ d with digits := d.digits.dropLast }, true)

/-- `fn pin(&self) -> &str { &self.digits }` -/
def PinDots.pin (d : PinDots) : List Char :=
  d.digits

/-- One glyph emitted by `PinDots::render_dots`:
`overflow` is the small leftmost dot (`theme::DOT_SMALL` drawn in
`theme::GREY`), `dimmed` is the greyed-out dot (`theme::DOT_SMALL`
drawn in the style's text color), `normal` is a regular PIN dot
(`theme::ICON_PIN_BULLET`). -/
inductive Glyph where
  | overflow
  | dimmed
  | normal
  deriving Repr, DecidableEq

/-- `fn render_dots`: let `digits = self.digits.len()` and
`dots_visible = digits.min(MAX_VISIBLE_DOTS)`; emit the small leftmost
dot when `digits > MAX_VISIBLE_DOTS + 1` (advancing `digit_idx`), the
greyed-out dot when `digits > MAX_VISIBLE_DOTS` (advancing
`digit_idx`), then one regular dot for each index in
`digit_idx..dots_visible`.  The cursor jiggle is a pure horizontal
offset and emits no glyph. -/
def PinDots.render_dots (d : PinDots) : List Glyph :=
  let digits := d.digits.length
  let dots_visible := min digits MAX_VISIBLE_DOTS
  let digit_idx0 : Nat := if digits > MAX_VISIBLE_DOTS + 1 then 1 else 0
  let digit_idx : Nat :=
    if digits > MAX_VISIBLE_DOTS then digit_idx0 + 1 else digit_idx0
  (if digits > MAX_VISIBLE_DOTS + 1 then [Glyph.overflow] else []) ++
    (if digits > MAX_VISIBLE_DOTS then [Glyph.dimmed] else []) ++
    List.replicate (dots_visible - digit_idx) Glyph.normal

/-- `fn render_digits`: when `digits.len() <= MAX_VISIBLE_DIGITS` the
whole digit string is drawn; otherwise only
`&self.digits[offset..]` with
`offset = digits.saturating_sub(MAX_VISIBLE_DIGITS)`. -/
def PinDots.render_digits (d : PinDots) : List Char :=
  let digits := d.digits.length
  if digits ≤ MAX_VISIBLE_DIGITS then d.digits
  else d.digits.drop (digits - MAX_VISIBLE_DIGITS)

/-- A single buffer mutation as routed by the keypad: a digit push, an
erase-click pop, or a long-press clear. -/
inductive PinOp where
  | push (text : List Char)
  | pop
  | clear
  deriving Repr, DecidableEq

/-- Apply one buffer mutation. -/
def applyOp (op : PinOp) (d : PinDots) : PinDots :=
  match op with
  | .push text => d.push text
  | .pop => (d.pop).1
  | .clear => d.clear

/-- Apply a sequence of buffer mutations, oldest first. -/
def applyOps (ops : List PinOp) (d : PinDots) : PinDots :=
  match ops with
  | [] => d
  | op :: rest => applyOps rest (applyOp op d)

/-- The events `PinKeyboard::event` inspects: `Event::Attach(_)`,
`Event::Timer(token)`, the touch events handled by `PinDots::event`
(with the geometric test `self.area.contains(pos)` abstracted into the
Boolean `inside`), and all remaining event kinds. -/
inductive Event where
  | attach
  | timer (token : Nat)
  | touch_start (inside : Bool)
  | touch_end
  | other
  deriving Repr, DecidableEq

/-- The button messages relevant to the keypad's dispatch:
`ButtonMsg::Clicked` and `ButtonMsg::LongPressed`. -/
inductive ButtonMsg where
  | Clicked
  | LongPressed
  deriving Repr, DecidableEq

/-- The keypad's outgoing message `PinKeyboardMsg`. -/
inductive PinKeyboardMsg where
  | Confirmed
  | Cancelled
  deriving Repr, DecidableEq

/-- The slice of `EventCtx` the keypad uses: `request_timer` hands out
fresh opaque `TimerToken`s (modelled as successive naturals) and
records each request's duration in milliseconds. -/
structure EventCtx where
  next_token : Nat
  timer_reqs : List Nat
  deriving Repr, DecidableEq

/-- `ctx.request_timer(duration)`: returns a fresh token and logs the
request. -/
def EventCtx.request_timer (ctx : EventCtx) (duration_ms : Nat) :
    Nat × EventCtx :=
  (ctx.next_token,
    { next_token := ctx.next_token + 1,
      timer_reqs := ctx.timer_reqs ++ [duration_ms] })

/-- The fresh context at widget start-up: no timer requested yet. -/
def EventCtx.new : EventCtx :=
  { next_token := 0, timer_reqs := [] }

/-- `PinDots::event`: `TouchStart(pos)` inside the component's area
sets `display_digits`; `TouchEnd(_)` resets it (via `mem::replace`);
every other event leaves the state unchanged. -/
def PinDots.handle_event (d : PinDots) (ev : Event) : PinDots :=
  match ev with
  | .touch_start inside =>
      if inside then { d with display_digits := true } else d
  | .touch_end => { d with display_digits := false }
  | _ => d

/-- The visibility/enablement flags the keypad drives on its child
buttons: each digit button's enablement, the erase button's `Maybe`
visibility and inner enablement, likewise for cancel, and the confirm
button's enablement. -/
structure ControlState where
  digits_enabled : Bool
  erase_visible : Bool
  erase_enabled : Bool
  cancel_visible : Bool
  cancel_enabled : Bool
  confirm_enabled : Bool
  deriving Repr, DecidableEq

/-- `fn pin_modified`: recompute `is_full`/`is_empty` from the textbox,
then `enable_if(!is_full)` on every digit button,
`show_if(!is_empty)` and `enable_if(!is_empty)` on erase,
`show_if(is_empty && allow_cancel)` and `enable_if(is_empty)` on
cancel, `enable_if(!is_empty)` on confirm.  (The repaint requests have
no state content and are omitted.) -/
def pin_modified (allow_cancel : Bool) (textbox : PinDots) :
    ControlState :=
  let is_full := textbox.is_full
  let is_empty := textbox.is_empty
  let cancel_enabled := is_empty && allow_cancel
  { digits_enabled := !is_full
    erase_visible := !is_empty
    erase_enabled := !is_empty
    cancel_visible := cancel_enabled
    cancel_enabled := is_empty
    confirm_enabled := !is_empty }

/-- The fixed digit array `["0", "1", ..., "9"]` the constructor
shuffles. -/
def digitStrs : List String :=
  ["0", "1", "2", "3", "4", "5", "6", "7", "8", "9"]

/-- `fn generate_digit_buttons`: shuffle the ten digit labels with
`random::shuffle` and build one text button per label.  The secure
random shuffle is an external collaborator; it enters the embedding as
the function `shuffle`, applied exactly once, as in the source.  Only
the labels carry logic; styling is dropped. -/
def generate_digit_buttons (shuffle : List String → List String) :
    List String :=
  shuffle digitStrs

/-- State of `struct PinKeyboard`: the cancel permission, whether the
warning label is still present (`major_warning: Option<..>` modelled
by presence), the `PinDots` textbox, the digit buttons' text labels,
the child-control flags driven by `pin_modified`, and the stored
warning-timer token. -/
structure PinKeyboard where
  allow_cancel : Bool
  major_warning : Bool
  textbox : PinDots
  digit_labels : List String
  controls : ControlState
  warning_timer : Option Nat
  deriving Repr, DecidableEq

/-- `PinKeyboard::new`: erase button initially hidden and disabled,
cancel button visible iff `allow_cancel` (enabled by default), confirm
initially disabled, digit buttons enabled by default, empty textbox,
freshly shuffled digit labels, no warning timer. -/
def PinKeyboard.new (major_warning : Bool) (allow_cancel : Bool)
    (shuffle : List String → List String) : PinKeyboard :=
  { allow_cancel
    major_warning
    textbox := PinDots.new
    digit_labels := generate_digit_buttons shuffle
    controls :=
      { digits_enabled := true
        erase_visible := false
        erase_enabled := false
        cancel_visible := allow_cancel
        cancel_enabled := true
        confirm_enabled := false }
    warning_timer := none }

/-- The child buttons' responses to one incoming event, i.e. the values
`self.confirm_btn.event`, `self.cancel_btn.event`,
`self.erase_btn.event` and each `digit_btns[i].event` return in the
source.  The buttons are external collaborators, so their responses
are inputs of the embedding. -/
structure ButtonResponses where
  confirm : Option ButtonMsg
  cancel : Option ButtonMsg
  erase : Option ButtonMsg
  digits : List (Option ButtonMsg)
  deriving Repr, DecidableEq

/-- Responses of an event no button reacts to. -/
def ButtonResponses.none10 : ButtonResponses :=
  { confirm := none, cancel := none, erase := none,
    digits := List.replicate 10 none }

/-- Recompute the control flags after a buffer mutation
(`self.pin_modified(ctx)`). -/
def PinKeyboard.update_controls (kb : PinKeyboard) : PinKeyboard :=
  { kb with controls := pin_modified kb.allow_cancel kb.textbox }

/-- The `for btn in &mut self.digit_btns` loop: walk the digit buttons
in order, and at the first one whose event response is `Clicked`, push
its text label into the textbox, recompute the control flags and stop
(returning `None` upward). -/
def digit_loop (kb : PinKeyboard) :
    List (String × Option ButtonMsg) → PinKeyboard
  | [] => kb
  | (label, r) :: rest =>
      if r = some ButtonMsg.Clicked then
        PinKeyboard.update_controls
          { kb with textbox := kb.textbox.push label.data }
      else digit_loop kb rest

/-- `PinKeyboard::event`.  First the warning bookkeeping: on
`Attach(_)` while the warning label is present, arm a 2-second
(2000 ms) timer and store its token; on `Timer(token)` equal to the
stored token, drop the warning label.  Then the textbox gets the event
(reveal handling), then the dispatch chain: confirm click returns
`Confirmed`; cancel click returns `Cancelled`; erase click pops,
erase long-press clears (both recompute controls, no message); finally
the digit-button loop.  Returns the new keypad state, the new context
and the optional outgoing message. -/
def PinKeyboard.event (kb : PinKeyboard) (ctx : EventCtx) (ev : Event)
    (resp : ButtonResponses) :
    PinKeyboard × EventCtx × Option PinKeyboardMsg :=
  let step1 : PinKeyboard × EventCtx :=
    match ev with
    | .attach =>
        if kb.major_warning then
          let tc := ctx.request_timer 2000
          ({ kb with warning_timer := some tc.1 }, tc.2)
        else (kb, ctx)
    | .timer token =>
        if kb.warning_timer = some token then
          ({ kb with major_warning := false }, ctx)
        else (kb, ctx)
    | _ => (kb, ctx)
  let kb1 := step1.1
  let ctx1 := step1.2
  let kb2 := { kb1 with textbox := kb1.textbox.handle_event ev }
  if resp.confirm = some ButtonMsg.Clicked then
    (kb2, ctx1, some PinKeyboardMsg.Confirmed)
  else if resp.cancel = some ButtonMsg.Clicked then
    (kb2, ctx1, some PinKeyboardMsg.Cancelled)
  else
    match resp.erase with
    | some ButtonMsg.Clicked =>
        (PinKeyboard.update_controls
          { kb2 with textbox := (kb2.textbox.pop).1 }, ctx1, none)
    | some ButtonMsg.LongPressed =>
        (PinKeyboard.update_controls
          { kb2 with textbox := kb2.textbox.clear }, ctx1, none)
    | _ =>
        (digit_loop kb2 (kb2.digit_labels.zip resp.digits), ctx1, none)

/-- Process a sequence of events, oldest first, threading keypad state
and context. -/
def PinKeyboard.run (kb : PinKeyboard) (ctx : EventCtx) :
    List (Event × ButtonResponses) → PinKeyboard × EventCtx
  | [] => (kb, ctx)
  | (ev, resp) :: rest =>
      let out := kb.event ctx ev resp
      PinKeyboard.run out.1 out.2.1 rest

/-! ## Helper lemmas -/

theorem push_digits_eq (d : PinDots) (text : List Char) :
    (d.push text).digits =
      if d.digits.length + text.length > MAX_LENGTH then d.digits
      else d.digits ++ text := by
  simp only [PinDots.push, shortStringPushStr]
  split <;> rfl

theorem applyOp_length_le (op : PinOp) (d : PinDots)
    (h : d.digits.length ≤ MAX_LENGTH) :
    (applyOp op d).digits.length ≤ MAX_LENGTH := by
  cases op with
  | push text =>
      simp only [applyOp, push_digits_eq]
      split
      · exact h
      · simp only [List.length_append]; omega
  | pop =>
      simp only [applyOp, PinDots.pop]
      cases hd : d.digits with
      | nil => simp [hd, MAX_LENGTH]
      | cons a l =>
          rw [hd] at h
          simp only [hd, List.length_dropLast]
          omega
  | clear => simp [applyOp, PinDots.clear]

theorem applyOps_length_le (ops : List PinOp) (d : PinDots)
    (h : d.digits.length ≤ MAX_LENGTH) :
    (applyOps ops d).digits.length ≤ MAX_LENGTH := by
  induction ops generalizing d with
  | nil => simpa [applyOps] using h
  | cons op rest ih => exact ih _ (applyOp_length_le op d h)

theorem digit_loop_digit_labels (kb : PinKeyboard)
    (l : List (String × Option ButtonMsg)) :
    (digit_loop kb l).digit_labels = kb.digit_labels := by
  induction l with
  | nil => rfl
  | cons p rest ih =>
      simp only [digit_loop]
      split
      · rfl
      · exact ih

theorem digit_loop_major_warning (kb : PinKeyboard)
    (l : List (String × Option ButtonMsg)) :
    (digit_loop kb l).major_warning = kb.major_warning := by
  induction l with
  | nil => rfl
  | cons p rest ih =>
      simp only [digit_loop]
      split
      · rfl
      · exact ih

theorem digit_loop_warning_timer (kb : PinKeyboard)
    (l : List (String × Option ButtonMsg)) :
    (digit_loop kb l).warning_timer = kb.warning_timer := by
  induction l with
  | nil => rfl
  | cons p rest ih =>
      simp only [digit_loop]
      split
      · rfl
      · exact ih

theorem event_digit_labels (kb : PinKeyboard) (ctx : EventCtx)
    (ev : Event) (resp : ButtonResponses) :
    ((kb.event ctx ev resp).1).digit_labels = kb.digit_labels := by
  simp only [PinKeyboard.event]
  cases ev <;> (repeat' split) <;>
    simp_all [digit_loop_digit_labels, PinKeyboard.update_controls]

theorem event_keeps_warning_off (kb : PinKeyboard) (ctx : EventCtx)
    (ev : Event) (resp : ButtonResponses)
    (h : kb.major_warning = false) :
    ((kb.event ctx ev resp).1).major_warning = false := by
  simp only [PinKeyboard.event]
  cases ev <;> (repeat' split) <;>
    simp_all [digit_loop_major_warning, PinKeyboard.update_controls]

theorem run_keeps_warning_off (trace : List (Event × ButtonResponses))
    (kb : PinKeyboard) (ctx : EventCtx)
    (h : kb.major_warning = false) :
    ((kb.run ctx trace).1).major_warning = false := by
  induction trace generalizing kb ctx with
  | nil => simpa [PinKeyboard.run] using h
  | cons p rest ih =>
      simp only [PinKeyboard.run]
      exact ih _ _ (event_keeps_warning_off _ _ _ _ h)

/-! ## Claims -/

/-- C1, counterexample.  The claim says an over-capacity push leaves
exactly 50 stored characters (truncation to capacity).  From a buffer
of 49 characters, pushing the two-character text "12" would exceed
`MAX_LENGTH`, yet afterwards the buffer still holds 49 characters, not
50: `push_str` rejects the whole input. -/
theorem C1_counterexample :
    (PinDots.mk (List.replicate 49 '1') false).digits.length
        + ['1', '2'].length > MAX_LENGTH ∧
    ((PinDots.mk (List.replicate 49 '1') false).push ['1', '2']).digits.length
        = 49 ∧
    ((PinDots.mk (List.replicate 49 '1') false).push ['1', '2']).digits.length
        ≠ MAX_LENGTH := by
  refine ⟨by decide, by decide, by decide⟩

/-- C1, amended.  `PinDots::push` never raises: it is a total function
on every buffer state and pushed text.  When the resulting length
would exceed `MAX_LENGTH = 50` the buffer is left entirely unchanged
(the whole input is rejected, not truncated to capacity); otherwise
the text is appended in full. -/
theorem C1_push_total_rejects_overflow (d : PinDots) (text : List Char) :
    (d.push text).digits =
      if d.digits.length + text.length > MAX_LENGTH then d.digits
      else d.digits ++ text :=
  push_digits_eq d text

/-- C10.  If `PinDots::push` is called with a text whose length added
to the current buffer length exceeds 50, the buffer content is left
entirely unchanged — the whole input is rejected atomically, with no
partial append. -/
theorem C10_push_overflow_is_atomic_noop (d : PinDots) (text : List Char)
    (h : MAX_LENGTH < d.digits.length + text.length) :
    (d.push text).digits = d.digits := by
  rw [push_digits_eq, if_pos h]

/-- C10, witness: pushing a single digit onto a buffer holding 50
digits leaves the stored digits identical to before the call. -/
theorem C10_witness :
    MAX_LENGTH
        < (PinDots.mk (List.replicate 50 '1') false).digits.length
            + ['2'].length ∧
    ((PinDots.mk (List.replicate 50 '1') false).push ['2']).digits
        = (PinDots.mk (List.replicate 50 '1') false).digits :=
  ⟨by decide,
   C10_push_overflow_is_atomic_noop (PinDots.mk (List.replicate 50 '1') false)
     ['2'] (by decide)⟩

/-- C9.  For all finite sequences of push/pop/clear operations starting
from the empty buffer, `len()` stays within [0, 50]; it matches the net
effect of the operations (push grows the length by the pushed text's
length exactly when it fits and otherwise leaves it unchanged, pop
shrinks it by one, clear resets it to zero); pop on an empty buffer is
a no-op that reports no removal (returning `false`); and every single
operation either appends to the end or truncates from the end of the
content (one side is always a prefix of the other), never an edit
elsewhere. -/
theorem C9_buffer_invariants :
    (∀ ops : List PinOp,
      (applyOps ops PinDots.new).digits.length ≤ MAX_LENGTH) ∧
    (∀ (d : PinDots) (text : List Char),
      (d.push text).digits.length =
        if d.digits.length + text.length ≤ MAX_LENGTH
        then d.digits.length + text.length else d.digits.length) ∧
    (∀ d : PinDots, ((d.pop).1).digits.length = d.digits.length - 1) ∧
    (∀ d : PinDots, (d.clear).digits.length = 0) ∧
    (∀ d : PinDots, d.digits = [] → d.pop = (d, false)) ∧
    (∀ (d : PinDots) (op : PinOp),
      (applyOp op d).digits <+: d.digits ∨
        d.digits <+: (applyOp op d).digits) := by
  refine ⟨fun ops => applyOps_length_le ops PinDots.new (by simp [PinDots.new, MAX_LENGTH]),
    fun d text => ?_, fun d => ?_, fun d => ?_, fun d hd => ?_,
    fun d op => ?_⟩
  · rw [push_digits_eq]
    split <;> rename_i hcond
    · rw [if_neg (by omega)]
    · rw [if_pos (by omega)]
      simp [List.length_append]
  · simp only [PinDots.pop]
    cases hd : d.digits with
    | nil => simp [hd]
    | cons a l => simp [hd, List.length_dropLast]
  · simp [PinDots.clear]
  · simp [PinDots.pop, hd]
  · cases op with
    | push text =>
        simp only [applyOp, push_digits_eq]
        split
        · exact Or.inl List.prefix_rfl
        · exact Or.inr (List.prefix_append _ _)
    | pop =>
        refine Or.inl ?_
        simp only [applyOp, PinDots.pop]
        cases hd : d.digits with
        | nil => simp [hd]
        | cons a l => simpa [hd] using List.dropLast_prefix (a :: l)
    | clear =>
        exact Or.inl (by simp [applyOp, PinDots.clear])

/-- C9, witness: pop on the empty buffer is a no-op reporting `false`,
and a concrete push/pop/clear sequence stays within bounds. -/
theorem C9_witness :
    PinDots.pop PinDots.new = (PinDots.new, false) ∧
    (applyOps [PinOp.push ['1'], PinOp.pop, PinOp.clear]
        PinDots.new).digits.length ≤ MAX_LENGTH :=
  ⟨C9_buffer_invariants.2.2.2.2.1 PinDots.new rfl,
   C9_buffer_invariants.1 [PinOp.push ['1'], PinOp.pop, PinOp.clear]⟩

/-- C2.  For every processed event, `PinKeyboard::event` returns
exactly one of `Confirmed` or `Cancelled`, or no message at all, never
both; when the same event produces a click on both the confirm and the
cancel button, `Confirmed` is returned, because confirm is checked
before cancel in the fixed dispatch order (and with neither clicked no
message is emitted). -/
theorem C2_event_message_dispatch (kb : PinKeyboard) (ctx : EventCtx)
    (ev : Event) (resp : ButtonResponses) :
    ((kb.event ctx ev resp).2.2 = none ∨
      (kb.event ctx ev resp).2.2 = some PinKeyboardMsg.Confirmed ∨
      (kb.event ctx ev resp).2.2 = some PinKeyboardMsg.Cancelled) ∧
    (resp.confirm = some ButtonMsg.Clicked →
      (kb.event ctx ev resp).2.2 = some PinKeyboardMsg.Confirmed) ∧
    (resp.confirm ≠ some ButtonMsg.Clicked →
      resp.cancel = some ButtonMsg.Clicked →
      (kb.event ctx ev resp).2.2 = some PinKeyboardMsg.Cancelled) ∧
    (resp.confirm ≠ some ButtonMsg.Clicked →
      resp.cancel ≠ some ButtonMsg.Clicked →
      (kb.event ctx ev resp).2.2 = none) := by
  refine ⟨?_, ?_, ?_, ?_⟩
  · rcases hm : (kb.event ctx ev resp).2.2 with _ | m
    · exact Or.inl rfl
    · cases m
      · exact Or.inr (Or.inl rfl)
      · exact Or.inr (Or.inr rfl)
  · intro hc
    simp only [PinKeyboard.event, hc]
    cases ev <;> simp
  · intro hc hca
    simp only [PinKeyboard.event, hca]
    cases ev <;> simp [hc]
  · intro hc hca
    simp only [PinKeyboard.event]
    cases ev <;> simp only [] <;>
      (rw [if_neg hc, if_neg hca]; cases hr : resp.erase with
        | none => rfl
        | some m => cases m <;> rfl)

/-- C2, witness: an event whose responses click both the confirm and
the cancel button yields exactly the `Confirmed` message. -/
theorem C2_witness :
    ((PinKeyboard.new false true id).event EventCtx.new Event.other
        { confirm := some ButtonMsg.Clicked,
          cancel := some ButtonMsg.Clicked,
          erase := none,
          digits := List.replicate 10 none }).2.2
      = some PinKeyboardMsg.Confirmed :=
  (C2_event_message_dispatch (PinKeyboard.new false true id) EventCtx.new
      Event.other
      { confirm := some ButtonMsg.Clicked,
        cancel := some ButtonMsg.Clicked,
        erase := none,
        digits := List.replicate 10 none }).2.1 rfl

/-- C3.  After every buffer mutation (digit push, erase pop, long-press
clear), the control state recomputed by `pin_modified` satisfies: every
digit button is enabled iff the buffer is not full; the erase button is
visible iff the buffer is not empty and enabled iff the buffer is not
empty; the cancel button is visible iff the buffer is empty and cancel
is permitted for the session, and enabled iff the buffer is empty; the
confirm button is enabled iff the buffer is not empty. -/
theorem C3_controls_track_buffer (allow_cancel : Bool) (d : PinDots)
    (op : PinOp) :
    ((pin_modified allow_cancel (applyOp op d)).digits_enabled = true ↔
      (applyOp op d).digits.length < MAX_LENGTH) ∧
    ((pin_modified allow_cancel (applyOp op d)).erase_visible = true ↔
      (applyOp op d).digits ≠ []) ∧
    ((pin_modified allow_cancel (applyOp op d)).erase_enabled = true ↔
      (applyOp op d).digits ≠ []) ∧
    ((pin_modified allow_cancel (applyOp op d)).cancel_visible = true ↔
      ((applyOp op d).digits = [] ∧ allow_cancel = true)) ∧
    ((pin_modified allow_cancel (applyOp op d)).cancel_enabled = true ↔
      (applyOp op d).digits = []) ∧
    ((pin_modified allow_cancel (applyOp op d)).confirm_enabled = true ↔
      (applyOp op d).digits ≠ []) := by
  refine ⟨?_, ?_, ?_, ?_, ?_, ?_⟩ <;>
    simp [pin_modified, PinDots.is_full, PinDots.is_empty,
      List.isEmpty_iff, Nat.not_le]

/-- C3, witness: after a single digit push into the empty buffer, erase
is visible and enabled, confirm is enabled, cancel is hidden, and the
digit buttons are enabled. -/
theorem C3_witness :
    (pin_modified true (applyOp (PinOp.push ['1']) PinDots.new)).confirm_enabled
      = true :=
  (C3_controls_track_buffer true PinDots.new (PinOp.push ['1'])).2.2.2.2.2.mpr
    (by decide)

/-- C4.  At every keypad construction the digit-button labels are the
result of one application of the digit shuffle to ["0", ..., "9"] — so,
whenever the shuffle permutes its input, the labels are exactly a
permutation of the digits "0" through "9", with no repeats and no
omissions — and no event processing ever changes the labels (the
shuffle happens once per construction, not per event; rendering reads
state and cannot reshuffle). -/
theorem C4_digit_labels_shuffled_once (mw ac : Bool)
    (shuffle : List String → List String)
    (h : (shuffle digitStrs).Perm digitStrs) :
    (PinKeyboard.new mw ac shuffle).digit_labels.Perm digitStrs ∧
    (PinKeyboard.new mw ac shuffle).digit_labels = shuffle digitStrs ∧
    (∀ (kb : PinKeyboard) (ctx : EventCtx) (ev : Event)
        (resp : ButtonResponses),
      ((kb.event ctx ev resp).1).digit_labels = kb.digit_labels) :=
  ⟨h, rfl, fun kb ctx ev resp => event_digit_labels kb ctx ev resp⟩

/-- C4, witness: with the identity permutation as shuffle, the
constructed keypad's labels are a permutation of "0"–"9". -/
theorem C4_witness :
    (PinKeyboard.new true true id).digit_labels.Perm digitStrs :=
  (C4_digit_labels_shuffled_once true true id (List.Perm.refl _)).1

/-- C5.  In masked mode: for every digit count n ≤ 18 the indicator
renders exactly n mask glyphs; for n = 19 it renders one dimmed glyph
followed by 17 normal mask glyphs (18 glyphs, no overflow glyph); for
n = 20 it renders one overflow glyph, one dimmed glyph and 16 normal
mask glyphs (18 glyphs total). -/
theorem C5_mask_glyph_counts (d : PinDots) :
    (d.digits.length ≤ 18 →
      d.render_dots = List.replicate d.digits.length Glyph.normal) ∧
    (d.digits.length = 19 →
      d.render_dots = Glyph.dimmed :: List.replicate 17 Glyph.normal) ∧
    (d.digits.length = 20 →
      d.render_dots
        = Glyph.overflow :: Glyph.dimmed :: List.replicate 16 Glyph.normal) := by
  refine ⟨fun h => ?_, fun h => ?_, fun h => ?_⟩
  · have h1 : ¬ d.digits.length > MAX_VISIBLE_DOTS + 1 := by
      simp only [MAX_VISIBLE_DOTS]; omega
    have h2 : ¬ d.digits.length > MAX_VISIBLE_DOTS := by
      simp only [MAX_VISIBLE_DOTS]; omega
    have h3 : min d.digits.length MAX_VISIBLE_DOTS = d.digits.length := by
      simp only [MAX_VISIBLE_DOTS]; omega
    simp [PinDots.render_dots, h1, h2, h3]
  · simp [PinDots.render_dots, h, MAX_VISIBLE_DOTS]
  · simp [PinDots.render_dots, h, MAX_VISIBLE_DOTS]

/-- C5, witness: concrete masked renderings at n = 5, n = 19 and
n = 20. -/
theorem C5_witness :
    (PinDots.mk (List.replicate 5 '1') false).render_dots
        = List.replicate 5 Glyph.normal ∧
    (PinDots.mk (List.replicate 19 '1') false).render_dots
        = Glyph.dimmed :: List.replicate 17 Glyph.normal ∧
    (PinDots.mk (List.replicate 20 '1') false).render_dots
        = Glyph.overflow :: Glyph.dimmed :: List.replicate 16 Glyph.normal :=
  ⟨(C5_mask_glyph_counts (PinDots.mk (List.replicate 5 '1') false)).1
      (by decide),
   (C5_mask_glyph_counts (PinDots.mk (List.replicate 19 '1') false)).2.1
      (by decide),
   (C5_mask_glyph_counts (PinDots.mk (List.replicate 20 '1') false)).2.2
      (by decide)⟩

/-- C6.  In masked mode, for every digit count n with 18 < n ≤ 50 the
indicator renders one overflow glyph exactly when n > 19, always one
dimmed glyph, and then `MAX_VISIBLE_DOTS` minus the glyphs shown so far
normal mask glyphs, so the total visible glyph count stays capped at
`MAX_VISIBLE_DOTS` plus the possible overflow glyph no matter how
large n grows. -/
theorem C6_mask_overflow_cap (d : PinDots)
    (h1 : MAX_VISIBLE_DOTS < d.digits.length)
    (h2 : d.digits.length ≤ MAX_LENGTH) :
    (d.render_dots.count Glyph.overflow
        = if MAX_VISIBLE_DOTS + 1 < d.digits.length then 1 else 0) ∧
    d.render_dots.count Glyph.dimmed = 1 ∧
    d.render_dots.count Glyph.normal
        = MAX_VISIBLE_DOTS -
            (d.render_dots.count Glyph.overflow
              + d.render_dots.count Glyph.dimmed) ∧
    d.render_dots.length
        ≤ MAX_VISIBLE_DOTS
            + (if MAX_VISIBLE_DOTS + 1 < d.digits.length then 1 else 0) := by
  have hmin : min d.digits.length MAX_VISIBLE_DOTS = MAX_VISIBLE_DOTS := by
    simp only [MAX_VISIBLE_DOTS] at h1 ⊢; omega
  by_cases h3 : MAX_VISIBLE_DOTS + 1 < d.digits.length
  · have e : d.render_dots
        = Glyph.overflow :: Glyph.dimmed :: List.replicate 16 Glyph.normal := by
      have h3' : 19 < d.digits.length := by
        simpa [MAX_VISIBLE_DOTS] using h3
      have h1' : 18 < d.digits.length := by
        simpa [MAX_VISIBLE_DOTS] using h1
      have hmin' : min d.digits.length 18 = 18 := by omega
      simp [PinDots.render_dots, MAX_VISIBLE_DOTS, h1', h3', hmin']
    rw [e, if_pos h3]
    refine ⟨by decide, by decide, by decide, by decide⟩
  · have hn : d.digits.length = 19 := by
      simp only [MAX_VISIBLE_DOTS] at h1 h3; omega
    have e : d.render_dots
        = Glyph.dimmed :: List.replicate 17 Glyph.normal := by
      simp [PinDots.render_dots, hn, MAX_VISIBLE_DOTS]
    rw [e, if_neg h3]
    refine ⟨by decide, by decide, by decide, by decide⟩

/-- C6, witness: at n = 20 the masked rendering shows the overflow
glyph once, the dimmed glyph once, 16 normal glyphs, and at most 19
glyphs in total. -/
theorem C6_witness :
    (PinDots.mk (List.replicate 20 '1') false).render_dots.count Glyph.dimmed
        = 1 ∧
    (PinDots.mk (List.replicate 20 '1') false).render_dots.count Glyph.overflow
        = 1 ∧
    (PinDots.mk (List.replicate 20 '1') false).render_dots.length
        ≤ MAX_VISIBLE_DOTS + 1 := by
  have h := C6_mask_overflow_cap (PinDots.mk (List.replicate 20 '1') false)
    (by decide) (by decide)
  exact ⟨h.2.1, by simpa using h.1, by simpa using h.2.2.2⟩

/-- C7.  In reveal mode, for every digit count n ≤ 18 the indicator
renders the full literal digit string; for n > 18 it renders exactly
the last 18 entered characters (a trailing window: the rendered text
has length 18 and the stored digits are the dropped head followed by
it); and once at least 18 characters are stored, appending one more
character shifts the rendered window by exactly one character. -/
theorem C7_reveal_window (d : PinDots) :
    (d.digits.length ≤ MAX_VISIBLE_DIGITS → d.render_digits = d.digits) ∧
    (MAX_VISIBLE_DIGITS < d.digits.length →
      d.render_digits.length = MAX_VISIBLE_DIGITS ∧
      d.digits
        = d.digits.take (d.digits.length - MAX_VISIBLE_DIGITS)
            ++ d.render_digits) ∧
    (∀ c : Char, MAX_VISIBLE_DIGITS ≤ d.digits.length →
      PinDots.render_digits { d with digits := d.digits ++ [c] }
        = d.render_digits.drop 1 ++ [c]) := by
  refine ⟨fun h => ?_, fun h => ⟨?_, ?_⟩, fun c h => ?_⟩
  · simp [PinDots.render_digits, h]
  · have hnot : ¬ d.digits.length ≤ MAX_VISIBLE_DIGITS := by omega
    simp only [PinDots.render_digits]
    rw [if_neg hnot, List.length_drop]
    omega
  · have hnot : ¬ d.digits.length ≤ MAX_VISIBLE_DIGITS := by omega
    simp only [PinDots.render_digits]
    rw [if_neg hnot]
    exact (List.take_append_drop _ d.digits).symm
  · simp only [MAX_VISIBLE_DIGITS] at h
    have hApp : (d.digits ++ [c]).length = d.digits.length + 1 := by simp
    have hcond : ¬ ((d.digits ++ [c]).length ≤ 18) := by
      rw [hApp]; omega
    simp only [PinDots.render_digits, MAX_VISIBLE_DIGITS]
    rw [if_neg hcond, hApp, List.drop_append_eq_append_drop]
    rw [show d.digits.length + 1 - 18 - d.digits.length = 0 by omega]
    rw [List.drop_zero]
    by_cases hcase : d.digits.length ≤ 18
    · rw [if_pos hcase]
      rw [show d.digits.length + 1 - 18 = 1 by omega]
    · rw [if_neg hcase, List.drop_drop]
      rw [show d.digits.length + 1 - 18
            = d.digits.length - 18 + 1 by omega]

/-- C7, witness: with 5 stored digits reveal mode shows all of them;
with 25 stored digits it shows a window of length 18; appending one
character to a 25-digit buffer shifts the window by one. -/
theorem C7_witness :
    (PinDots.mk ['1', '2', '3', '4', '5'] true).render_digits
        = ['1', '2', '3', '4', '5'] ∧
    (PinDots.mk (List.replicate 25 '1') true).render_digits.length
        = MAX_VISIBLE_DIGITS ∧
    PinDots.render_digits
        { PinDots.mk (List.replicate 25 '1') true with
            digits := List.replicate 25 '1' ++ ['2'] }
      = (PinDots.mk (List.replicate 25 '1') true).render_digits.drop 1
          ++ ['2'] :=
  ⟨(C7_reveal_window (PinDots.mk ['1', '2', '3', '4', '5'] true)).1
      (by decide),
   ((C7_reveal_window (PinDots.mk (List.replicate 25 '1') true)).2.1
      (by decide)).1,
   (C7_reveal_window (PinDots.mk (List.replicate 25 '1') true)).2.2 '2'
      (by decide)⟩

/-- C8, counterexample.  The claim says the warning timer is armed on
the first attachment only, with at most one outstanding timer and no
re-arming, and that the timer event carrying the matching token clears
the warning.  Processing two Attach events on a keypad constructed
with a warning requests a timer twice (re-arming), replaces the stored
token by the second one, and a subsequent timer event carrying the
first attachment's token (0) leaves the warning in place. -/
theorem C8_counterexample :
    (((PinKeyboard.new true true id).event EventCtx.new Event.attach
        ButtonResponses.none10).1.event
          ((PinKeyboard.new true true id).event EventCtx.new Event.attach
            ButtonResponses.none10).2.1 Event.attach
          ButtonResponses.none10).2.1.timer_reqs.length = 2 ∧
    (((PinKeyboard.new true true id).event EventCtx.new Event.attach
        ButtonResponses.none10).1.event
          ((PinKeyboard.new true true id).event EventCtx.new Event.attach
            ButtonResponses.none10).2.1 Event.attach
          ButtonResponses.none10).1.warning_timer = some 1 ∧
    ((((PinKeyboard.new true true id).event EventCtx.new Event.attach
        ButtonResponses.none10).1.event
          ((PinKeyboard.new true true id).event EventCtx.new Event.attach
            ButtonResponses.none10).2.1 Event.attach
          ButtonResponses.none10).1.event
        (((PinKeyboard.new true true id).event EventCtx.new Event.attach
            ButtonResponses.none10).1.event
          ((PinKeyboard.new true true id).event EventCtx.new Event.attach
            ButtonResponses.none10).2.1 Event.attach
          ButtonResponses.none10).2.1 (Event.timer 0)
        ButtonResponses.none10).1.major_warning = true := by
  refine ⟨rfl, rfl, rfl⟩

/-- C8, amended.  If the keypad holds a warning message, a one-shot
2-second (2000 ms) timer is armed on every attachment to the screen
while the warning is still present — each attachment requests a fresh
timer and replaces the stored token, so re-attachment re-arms — and
when a timer event carrying the currently stored token arrives, the
warning is permanently cleared for the remaining lifetime of the
instance (it never reappears, whatever events follow), while timer
events carrying any other token leave the warning unchanged. -/
theorem C8_warning_timer_lifecycle :
    (∀ (kb : PinKeyboard) (ctx : EventCtx) (resp : ButtonResponses),
      kb.major_warning = true →
        ((kb.event ctx Event.attach resp).2.1.timer_reqs
            = ctx.timer_reqs ++ [2000] ∧
          (kb.event ctx Event.attach resp).1.warning_timer
            = some ctx.next_token)) ∧
    (∀ (kb : PinKeyboard) (ctx : EventCtx) (resp : ButtonResponses)
        (tok : Nat),
      kb.warning_timer = some tok →
        ((kb.event ctx (Event.timer tok) resp).1).major_warning = false) ∧
    (∀ (kb : PinKeyboard) (ctx : EventCtx) (resp : ButtonResponses)
        (tok : Nat),
      kb.warning_timer ≠ some tok →
        ((kb.event ctx (Event.timer tok) resp).1).major_warning
          = kb.major_warning) ∧
    (∀ (kb : PinKeyboard) (ctx : EventCtx)
        (trace : List (Event × ButtonResponses)),
      kb.major_warning = false →
        ((kb.run ctx trace).1).major_warning = false) := by
  refine ⟨fun kb ctx resp hw => ?_, fun kb ctx resp tok ht => ?_,
    fun kb ctx resp tok ht => ?_, fun kb ctx trace hw =>
      run_keeps_warning_off trace kb ctx hw⟩
  · simp only [PinKeyboard.event, hw, if_pos, EventCtx.request_timer]
    (repeat' split) <;>
      simp_all [digit_loop_warning_timer, PinKeyboard.update_controls]
  · simp only [PinKeyboard.event, ht, if_pos]
    (repeat' split) <;>
      simp_all [digit_loop_major_warning, PinKeyboard.update_controls]
  · simp only [PinKeyboard.event]
    rw [if_neg ht]
    (repeat' split) <;>
      simp_all [digit_loop_major_warning, PinKeyboard.update_controls]

/-- C8, witness: a keypad constructed with a warning arms token 0 with
a 2000 ms request on its first attachment, and once the warning is
cleared a whole subsequent trace of events leaves it cleared. -/
theorem C8_witness :
    ((PinKeyboard.new true false id).event EventCtx.new Event.attach
        ButtonResponses.none10).1.warning_timer = some 0 ∧
    ((PinKeyboard.new false false id).run EventCtx.new
        [(Event.attach, ButtonResponses.none10),
          (Event.timer 0, ButtonResponses.none10)]).1.major_warning
      = false :=
  ⟨(C8_warning_timer_lifecycle.1 (PinKeyboard.new true false id)
      EventCtx.new ButtonResponses.none10 rfl).2,
   C8_warning_timer_lifecycle.2.2.2 (PinKeyboard.new false false id)
      EventCtx.new
      [(Event.attach, ButtonResponses.none10),
        (Event.timer 0, ButtonResponses.none10)] rfl⟩

end Pin
